import Mathlib

/-!
Shallow embedding of `src/python/pose/pose_demo.py` (deepcut-cnn pose demo).

The embedding covers the three logic-bearing parts of the script:
  * the heatmap channel remapping performed inline in `predict_pose_from`
    (native 14-channel stack to canonical 16-channel stack, synthesizing
    pelvis and thorax),
  * the deterministic output-path policy of the per-image loop
    (keypoint archive, heatmap bundle, visualization preview), and
  * the disc rasterizer `_npcircle` together with the numpy slicing and
    boolean-mask-assignment semantics it relies on.

Machine floats are modelled by rationals; uint8 pixel values by naturals.
Fallible numpy operations (out-of-range channel access, boolean-mask
assignment with mismatched shapes) are modelled with `Option`.
-/

set_option autoImplicit false

namespace PoseDemo

/-- Python `int(...)` on a rational value: truncation toward zero. -/
def pyInt (q : ℚ) : ℤ := if q < 0 then ⌈q⌉ else ⌊q⌋

/-! ### Heatmap stacks and the channel remapping of `predict_pose_from` -/

/-- A `height × width × channels` float array (numpy `unary_maps` / `um2`);
values outside the declared bounds are irrelevant padding of the total
function `data`. -/
structure HeatmapStack where
  h : ℕ
  w : ℕ
  c : ℕ
  data : ℕ → ℕ → ℕ → ℚ

/-- `stack[:, :, j]`: channel extraction, failing (numpy `IndexError`) when
`j` is not a valid channel index. -/
def chan (s : HeatmapStack) (j : ℕ) : Option (ℕ → ℕ → ℚ) :=
  if j < s.c then some (fun y x => s.data y x j) else none

/-- The channel remapping done inline in `predict_pose_from`:
`pelvis = (unary_maps[:,:,2] + unary_maps[:,:,3])/2.`,
`thorax = (2.*pelvis + unary_maps[:,:,12] + unary_maps[:,:,13])/4.`,
`um2 = zeros(h, w, 16)`, `um2[:,:,j] = unary_maps[:,:,j]` for `j < 6`,
`um2[:,:,6] = pelvis`, `um2[:,:,7] = thorax`, and
`um2[:,:,j] = unary_maps[:,:,j-2]` for `8 <= j < 16`.
Channel reads are in the evaluation order of the script; a failing read
aborts the computation, as the raised `IndexError` would. -/
def remap (s : HeatmapStack) : Option HeatmapStack :=
  match chan s 2 with
  | none => none
  | some c2 =>
  match chan s 3 with
  | none => none
  | some c3 =>
  let pelvis : ℕ → ℕ → ℚ := fun y x => (c2 y x + c3 y x) / 2
  match chan s 12 with
  | none => none
  | some c12 =>
  match chan s 13 with
  | none => none
  | some c13 =>
  let thorax : ℕ → ℕ → ℚ := fun y x => (2 * pelvis y x + c12 y x + c13 y x) / 4
  match chan s 0 with
  | none => none
  | some c0 =>
  match chan s 1 with
  | none => none
  | some c1 =>
  match chan s 4 with
  | none => none
  | some c4 =>
  match chan s 5 with
  | none => none
  | some c5 =>
  match chan s 6 with
  | none => none
  | some c6 =>
  match chan s 7 with
  | none => none
  | some c7 =>
  match chan s 8 with
  | none => none
  | some c8 =>
  match chan s 9 with
  | none => none
  | some c9 =>
  match chan s 10 with
  | none => none
  | some c10 =>
  match chan s 11 with
  | none => none
  | some c11 =>
  some ⟨s.h, s.w, 16, fun y x j =>
    if j = 0 then c0 y x
    else if j = 1 then c1 y x
    else if j = 2 then c2 y x
    else if j = 3 then c3 y x
    else if j = 4 then c4 y x
    else if j = 5 then c5 y x
    else if j = 6 then pelvis y x
    else if j = 7 then thorax y x
    else if j = 8 then c6 y x
    else if j = 9 then c7 y x
    else if j = 10 then c8 y x
    else if j = 11 then c9 y x
    else if j = 12 then c10 y x
    else if j = 13 then c11 y x
    else if j = 14 then c12 y x
    else if j = 15 then c13 y x
    else 0⟩

/-- A concrete 14-channel stack, used to instantiate the remapping theorems. -/
def exStack : HeatmapStack := ⟨1, 1, 14, fun _ _ j => (j : ℚ)⟩

/-- A second concrete 14-channel stack. -/
def exStack14 : HeatmapStack := ⟨2, 2, 14, fun y x j => (y : ℚ) + 10 * x + 100 * j⟩

/-- A concrete 15-channel stack. -/
def exStack15 : HeatmapStack := ⟨1, 1, 15, fun _ _ j => (j : ℚ)⟩

/-! ### Output-path policy of the per-image loop -/

/-- Index of the last occurrence of a character (`str.rfind`), `-1` if absent. -/
def rfindIdx (c : Char) : List Char → ℤ
  | [] => -1
  | a :: rest =>
      let r := rfindIdx c rest
      if 0 ≤ r then r + 1 else if a = c then 0 else -1

/-- `os.path.basename` (posix): everything after the last `/`. -/
def pyBasename (p : String) : String :=
  ⟨p.toList.drop (rfindIdx '/' p.toList + 1).toNat⟩

/-- `str.rstrip('/')`: drop trailing separators. -/
def rstripSep (l : List Char) : List Char :=
  (l.reverse.dropWhile (fun a => a = '/')).reverse

/-- `os.path.dirname` (posix): the part before the last `/`, with trailing
separators stripped unless the head is all separators. -/
def pyDirname (p : String) : String :=
  let l := p.toList
  let head := l.take (rfindIdx '/' l + 1).toNat
  if head ≠ [] ∧ head.any (fun a => a != '/') then ⟨rstripSep head⟩ else ⟨head⟩

/-- `os.path.splitext` (posix): split at the last dot of the final component,
unless that component consists solely of leading dots up to the split point. -/
def pySplitext (p : String) : String × String :=
  let l := p.toList
  let sepIdx := rfindIdx '/' l
  let dotIdx := rfindIdx '.' l
  if sepIdx < dotIdx then
    let between := (l.take dotIdx.toNat).drop (sepIdx + 1).toNat
    if between.any (fun a => a != '.') then
      (⟨l.take dotIdx.toNat⟩, ⟨l.drop dotIdx.toNat⟩)
    else (p, "")
  else (p, "")

/-- `os.path.join` (posix, two components). -/
def pyJoin (a b : String) : String :=
  if b.toList.head? = some '/' then b
  else if a = "" ∨ a.toList.getLast? = some '/' then a ++ b
  else a ++ "/" ++ b

/-- The per-image deterministic output paths. -/
structure PathSet where
  keypoint : String
  heatmap : String
  vis : String

/-- The path computations of the body of the image loop in
`predict_pose_from`: `out_name` (keypoint archive, from `out_name_provided`
and `process_folder`), `fname` (heatmap bundle,
`join(dirname(image_name), splitext(image_name)[0] + '.h5')`), and
`vis_name = out_name + '_vis.png'`. -/
def outputPaths (processFolder : Bool) (outNameProvided : Option String)
    (imageName : String) : PathSet :=
  let folder := pyDirname imageName
  let outName :=
    match outNameProvided with
    | none => imageName ++ "_pose.npz"
    | some o => if processFolder then pyJoin o (pyBasename imageName ++ "_pose.npz") else o
  let fname := pyJoin folder ((pySplitext imageName).1 ++ ".h5")
  ⟨outName, fname, outName ++ "_vis.png"⟩

/-- Whether the pre-loop code `if process_folder and out_name is not None and
not os.path.exists(out_name): os.mkdir(out_name)` creates the directory. -/
def mkdirPerformed (processFolder : Bool) (outNameProvided : Option String)
    (outExists : Bool) : Bool :=
  processFolder && outNameProvided.isSome && !outExists

/-! ### The disc rasterizer `_npcircle` -/

/-- A `height × width × 3` uint8 image; channel values are naturals and the
total function `pix` pads arbitrary indices. -/
structure Img where
  h : ℕ
  w : ℕ
  pix : ℕ → ℕ → ℕ → ℕ

/-- Resolution of one endpoint of a Python slice `[a:b]` against length `n`:
negative indices count from the end, then the result is clamped to `[0, n]`. -/
def sliceResolve (a : ℤ) (n : ℕ) : ℕ :=
  if a < 0 then (a + n).toNat else min a.toNat n

/-- Number of elements selected by the Python slice `[a:b]` on length `n`. -/
def sliceLen (a b : ℤ) (n : ℕ) : ℕ :=
  sliceResolve b n - sliceResolve a n

/-- The blend `(old.astype(float32) * transparency +
color.astype(float32) * (1 - transparency)).astype(uint8)` for one channel. -/
def blend (old colorv : ℕ) (t : ℚ) : ℕ :=
  (pyInt ((old : ℚ) * t + (colorv : ℚ) * (1 - t))).toNat % 256

/-- `_npcircle(image, cx, cy, radius, color, transparency)`:
`radius = int(radius)`, `cx = int(cx)`, `cy = int(cy)`,
`y, x = np.ogrid[-radius:radius, -radius:radius]`,
`index = x**2 + y**2 <= radius**2`, then boolean-mask assignment of the
blended color into `image[cy-radius:cy+radius, cx-radius:cx+radius]`.
The mask has shape `(2*radius, 2*radius)`; when the slice of the image has a
different shape the boolean indexing raises (numpy `IndexError`), modelled by
`none`; no pixel is modified in that case. -/
def npcircle (img : Img) (cx cy radius : ℚ) (color : ℕ → ℕ) (t : ℚ) : Option Img :=
  let r : ℤ := pyInt radius
  let cxi : ℤ := pyInt cx
  let cyi : ℤ := pyInt cy
  let rowStart := sliceResolve (cyi - r) img.h
  let rowStop := sliceResolve (cyi + r) img.h
  let colStart := sliceResolve (cxi - r) img.w
  let colStop := sliceResolve (cxi + r) img.w
  if sliceLen (cyi - r) (cyi + r) img.h = (2 * r).toNat ∧
      sliceLen (cxi - r) (cxi + r) img.w = (2 * r).toNat then
    some ⟨img.h, img.w, fun y x k =>
      if rowStart ≤ y ∧ y < rowStop ∧ colStart ≤ x ∧ x < colStop ∧
          (((x - colStart : ℕ) : ℤ) - r) ^ 2 + (((y - rowStart : ℕ) : ℤ) - r) ^ 2 ≤ r ^ 2 then
        blend (img.pix y x k) (color k) t
      else img.pix y x k⟩
  else none

/-- The first entry `[255, 0, 0]` of the `colors` palette. -/
def red : ℕ → ℕ := fun k => if k = 0 then 255 else 0

/-- A zeroed 100×100 image. -/
def zero100 : Img := ⟨100, 100, fun _ _ _ => 0⟩

/-! ### The visualization input (axis swap before the overlay) -/

/-- A generic 3-dimensional numpy array of uint8 values. -/
structure Arr3 where
  d0 : ℕ
  d1 : ℕ
  d2 : ℕ
  val : ℕ → ℕ → ℕ → ℕ

/-- `np.swapaxes(a, 0, 2)`. -/
def swapaxes02 (a : Arr3) : Arr3 :=
  ⟨a.d2, a.d1, a.d0, fun i j k => a.val k j i⟩

/-- `a[:, :, ::-1]`: reverse the last axis. -/
def revLast (a : Arr3) : Arr3 :=
  ⟨a.d0, a.d1, a.d2, fun i j k => a.val i j (a.d2 - 1 - k)⟩

/-- The tail of the per-image loop, after the estimator call: the statement
`image = np.swapaxes(image, 0, 2)` (preparing the h5 `image` entry) followed,
under `visualize`, by `visim = image[:, :, ::-1].copy()`. Returns the pair
(array stored in the h5 bundle, array handed to the disc overlay). -/
def persistedImageAndVisim (image : Arr3) : Arr3 × Arr3 :=
  let image2 := swapaxes02 image
  (image2, revLast image2)

/-- A concrete 1×1×3 BGR image whose single pixel is `(1, 2, 3)`. -/
def exImg : Arr3 := ⟨1, 1, 3, fun _ _ k => k + 1⟩

/-! ## Theorems -/

/-- Helper: `int()` of an integer value is that integer. -/
theorem pyInt_intCast (z : ℤ) : pyInt (z : ℚ) = z := by
  unfold pyInt
  split <;> simp

/-- Helper: explicit value of `remap` on stacks with at least 14 channels. -/
theorem remap_eq_of (s : HeatmapStack) (h : 13 < s.c) :
    remap s = some ⟨s.h, s.w, 16, fun y x j =>
      if j = 0 then s.data y x 0
      else if j = 1 then s.data y x 1
      else if j = 2 then s.data y x 2
      else if j = 3 then s.data y x 3
      else if j = 4 then s.data y x 4
      else if j = 5 then s.data y x 5
      else if j = 6 then (s.data y x 2 + s.data y x 3) / 2
      else if j = 7 then
        (2 * ((s.data y x 2 + s.data y x 3) / 2) + s.data y x 12 + s.data y x 13) / 4
      else if j = 8 then s.data y x 6
      else if j = 9 then s.data y x 7
      else if j = 10 then s.data y x 8
      else if j = 11 then s.data y x 9
      else if j = 12 then s.data y x 10
      else if j = 13 then s.data y x 11
      else if j = 14 then s.data y x 12
      else if j = 15 then s.data y x 13
      else 0⟩ := by
  have e : ∀ j : ℕ, j < s.c → chan s j = some (fun y x => s.data y x j) := by
    intro j hj
    unfold chan
    rw [if_pos hj]
  simp only [remap, e 2 (by omega), e 3 (by omega), e 12 (by omega), e 13 (by omega),
    e 0 (by omega), e 1 (by omega), e 4 (by omega), e 5 (by omega), e 6 (by omega),
    e 7 (by omega), e 8 (by omega), e 9 (by omega), e 10 (by omega), e 11 (by omega)]

/-- C1: for every native heatmap stack with exactly 14 channels, `remap`
produces a stack with exactly 16 channels in which output channels 0–5 equal
native channels 0–5 and output channels 8–15 equal native channels 6–13,
value for value, while output channels 6 and 7 are derived from the hip and
shoulder channels by the pelvis/thorax formulas, never copied. -/
theorem remap_canonical_channels (s : HeatmapStack) (h : s.c = 14) :
    ∃ t, remap s = some t ∧ t.c = 16 ∧
      (∀ y x j, j < 6 → t.data y x j = s.data y x j) ∧
      (∀ y x j, 8 ≤ j → j < 16 → t.data y x j = s.data y x (j - 2)) ∧
      (∀ y x, t.data y x 6 = (s.data y x 2 + s.data y x 3) / 2) ∧
      (∀ y x, t.data y x 7 =
        (2 * ((s.data y x 2 + s.data y x 3) / 2) + s.data y x 12 + s.data y x 13) / 4) := by
  refine ⟨_, remap_eq_of s (by omega), rfl, ?_, ?_, ?_, ?_⟩
  · intro y x j hj
    interval_cases j <;> simp
  · intro y x j hj1 hj2
    interval_cases j <;> simp
  · intro y x
    simp
  · intro y x
    simp

/-- Witness for C1 at the concrete stack `exStack`. -/
theorem remap_canonical_channels_witness :
    exStack.c = 14 ∧
    (∃ t, remap exStack = some t ∧ t.c = 16 ∧
      (∀ y x j, j < 6 → t.data y x j = exStack.data y x j) ∧
      (∀ y x j, 8 ≤ j → j < 16 → t.data y x j = exStack.data y x (j - 2)) ∧
      (∀ y x, t.data y x 6 = (exStack.data y x 2 + exStack.data y x 3) / 2) ∧
      (∀ y x, t.data y x 7 =
        (2 * ((exStack.data y x 2 + exStack.data y x 3) / 2) +
          exStack.data y x 12 + exStack.data y x 13) / 4)) :=
  ⟨rfl, remap_canonical_channels exStack rfl⟩

/-- C2: for every 14-channel native stack and every pixel, the remapped
output at channel 6 equals the arithmetic mean of native channels 2 and 3 at
that pixel, and the output at channel 7 equals
`(2 * pelvis + native[12] + native[13]) / 4` at that pixel, where `pelvis`
is the output channel-6 value. -/
theorem remap_pelvis_thorax (s : HeatmapStack) (h : s.c = 14) :
    ∃ t, remap s = some t ∧ ∀ y x,
      t.data y x 6 = (s.data y x 2 + s.data y x 3) / 2 ∧
      t.data y x 7 = (2 * t.data y x 6 + s.data y x 12 + s.data y x 13) / 4 := by
  refine ⟨_, remap_eq_of s (by omega), ?_⟩
  intro y x
  constructor <;> simp

/-- Witness for C2 at the concrete stack `exStack14`. -/
theorem remap_pelvis_thorax_witness :
    exStack14.c = 14 ∧
    (∃ t, remap exStack14 = some t ∧ ∀ y x,
      t.data y x 6 = (exStack14.data y x 2 + exStack14.data y x 3) / 2 ∧
      t.data y x 7 =
        (2 * t.data y x 6 + exStack14.data y x 12 + exStack14.data y x 13) / 4) :=
  ⟨rfl, remap_pelvis_thorax exStack14 rfl⟩

/-- C7 counterexample: a native stack with 15 channels (not exactly 14) is
not rejected — `remap` succeeds on it. -/
theorem remap_accepts_15_channels :
    exStack15.c ≠ 14 ∧ (remap exStack15).isSome = true := by
  constructor
  · decide
  · rw [remap_eq_of exStack15 (by decide)]
    rfl

/-- C7 (amended): the channel remapping step fails exactly on native stacks
with fewer than 14 channels; stacks with 14 or more channels are accepted
(channels beyond index 13 are ignored). -/
theorem remap_none_iff (s : HeatmapStack) : remap s = none ↔ s.c < 14 := by
  constructor
  · intro hnone
    by_contra hc
    rw [remap_eq_of s (by omega)] at hnone
    exact Option.noConfusion hnone
  · intro hc
    obtain ⟨h, w, c, data⟩ := s
    simp only at hc
    interval_cases c <;> rfl

/-- C3: in a single-file run with no explicit output path the keypoint
archive path is the input path with `_pose.npz` appended; in a folder run
with an explicit output directory, the directory is created when absent and
each image's keypoint archive path is the output directory joined with the
image's basename plus `_pose.npz`. -/
theorem keypoint_path_policy :
    (∀ img : String, (outputPaths false none img).keypoint = img ++ "_pose.npz") ∧
    (∀ (o img : String),
      (outputPaths true (some o) img).keypoint = pyJoin o (pyBasename img ++ "_pose.npz")) ∧
    (∀ o : String, mkdirPerformed true (some o) false = true) :=
  ⟨fun _ => rfl, fun _ _ => rfl, fun _ => rfl⟩

/-- C4: the heatmap bundle path always equals the input path's directory
joined with the input path's stem (its `splitext` root) plus extension
`.h5`, for every combination of run mode and explicit output path — in
particular it never depends on the supplied output directory. -/
theorem heatmap_path_policy :
    ∀ (pf : Bool) (o : Option String) (img : String),
      (outputPaths pf o img).heatmap = pyJoin (pyDirname img) ((pySplitext img).1 ++ ".h5") ∧
      (outputPaths pf o img).heatmap = (outputPaths false none img).heatmap :=
  fun _ _ _ => ⟨rfl, rfl⟩

/-- C9: in a single-file run with an explicit output path, the keypoint
archive path is exactly the supplied path (no `_pose.npz` appended) and the
visualization path is the supplied path plus `_vis.png`. -/
theorem singlefile_explicit_out_paths :
    ∀ (o img : String),
      (outputPaths false (some o) img).keypoint = o ∧
      (outputPaths false (some o) img).vis = o ++ "_vis.png" :=
  fun _ _ => ⟨rfl, rfl⟩

/-- Helper: `int()` of a natural value is that value. -/
theorem pyInt_natCast (n : ℕ) : pyInt (n : ℚ) = n := by
  unfold pyInt
  rw [if_neg (by simp)]
  exact Int.floor_natCast n

/-- Helper: at transparency `0` the blend reduces to the color value
(mod 256, the uint8 cast). -/
theorem blend_transparency_zero (old c : ℕ) : blend old c 0 = c % 256 := by
  unfold blend
  norm_num [pyInt_natCast]

/-- Helper: the palette entries are valid uint8 values. -/
theorem red_mod_256 (k : ℕ) : red k % 256 = red k := by
  unfold red
  split <;> rfl

/-- Helper: the Python slice `[cy-r : cy+r]` on an axis of length `n` selects
fewer than `2*r` indices whenever the bounding range sticks out of `[0, n]`
on either side (for a center with nonnegative integer coordinate). -/
theorem sliceLen_lt_of_out (cy r : ℤ) (n : ℕ) (hr : 1 ≤ r) (hcy : 0 ≤ cy)
    (hout : cy - r < 0 ∨ (n : ℤ) < cy + r) :
    sliceLen (cy - r) (cy + r) n < (2 * r).toNat := by
  unfold sliceLen sliceResolve
  split_ifs <;> omega

/-- C5 counterexample: the pixel at offset `(dx, dy) = (8, 0)` from the
center satisfies `dx^2 + dy^2 <= 64`, yet rasterizing the radius-8 disc at
`(50, 50)` with color `[255,0,0]` and transparency `0` on the zeroed 100×100
image leaves it at `0`, not `255` — numpy's `ogrid[-r:r]` excludes offset
`+r`. -/
theorem npcircle_c5_counterexample :
    ((58:ℤ) - 50) ^ 2 + ((50:ℤ) - 50) ^ 2 ≤ 64 ∧ red 0 = 255 ∧
    (npcircle zero100 50 50 8 red 0).map (fun im => im.pix 50 58 0) = some 0 :=
  ⟨by decide, rfl, by decide⟩

/-- C5 (amended): rasterizing one disc of radius 8 centered at `(50, 50)`
with transparency 0 and color `[255,0,0]` on a 100×100 zeroed image sets
exactly the pixels at offsets `(dx, dy)` from the center with
`-8 ≤ dx ≤ 7`, `-8 ≤ dy ≤ 7` and `dx^2 + dy^2 ≤ 64` to `[255,0,0]` (the
half-open `ogrid` bounding box excludes offset `+8`), and leaves every other
pixel unchanged at `0`. -/
theorem npcircle_disc_at_50_50 :
    ∃ im, npcircle zero100 50 50 8 red 0 = some im ∧
      ∀ y x k, im.pix y x k =
        if 42 ≤ y ∧ y < 58 ∧ 42 ≤ x ∧ x < 58 ∧
            ((x:ℤ) - 50) ^ 2 + ((y:ℤ) - 50) ^ 2 ≤ 64 then red k else 0 := by
  refine ⟨_, rfl, ?_⟩
  intro y x k
  show (if 42 ≤ y ∧ y < 58 ∧ 42 ≤ x ∧ x < 58 ∧
      (((x - 42 : ℕ) : ℤ) - 8) ^ 2 + (((y - 42 : ℕ) : ℤ) - 8) ^ 2 ≤ 64 then
    blend 0 (red k) 0 else 0) = _
  rw [blend_transparency_zero, red_mod_256]
  refine if_congr ?_ rfl rfl
  constructor
  · rintro ⟨h1, h2, h3, h4, h5⟩
    refine ⟨h1, h2, h3, h4, ?_⟩
    have ex : ((x - 42 : ℕ) : ℤ) - 8 = (x : ℤ) - 50 := by omega
    have ey : ((y - 42 : ℕ) : ℤ) - 8 = (y : ℤ) - 50 := by omega
    rw [ex, ey] at h5
    exact h5
  · rintro ⟨h1, h2, h3, h4, h5⟩
    refine ⟨h1, h2, h3, h4, ?_⟩
    have ex : ((x - 42 : ℕ) : ℤ) - 8 = (x : ℤ) - 50 := by omega
    have ey : ((y - 42 : ℕ) : ℤ) - 8 = (y : ℤ) - 50 := by omega
    rw [ex, ey]
    exact h5

/-- C6 counterexample: for the radius-8 disc centered at `(50, 2)` on the
zeroed 100×100 image the bounding box sticks out of the top edge
(`2 - 8 < 0`), and the rasterizer raises (the slice has fewer rows than the
16×16 boolean mask) instead of filling the in-bounds part of the disc. -/
theorem npcircle_c6_counterexample :
    (2:ℤ) - 8 < 0 ∧ npcircle zero100 50 2 8 red 0 = none :=
  ⟨by decide, rfl⟩

/-- C6 (amended): for every disc of positive radius whose center has
nonnegative integer coordinates and whose bounding box extends outside the
image bounds, the boolean-mask assignment fails on the shape mismatch
between the clipped slice and the `2r×2r` mask: the rasterizer raises an
error and modifies no pixel, rather than drawing the in-bounds intersection. -/
theorem npcircle_out_of_bounds (img : Img) (cx cy r : ℤ) (color : ℕ → ℕ) (t : ℚ)
    (hr : 1 ≤ r) (hcx : 0 ≤ cx) (hcy : 0 ≤ cy)
    (hout : cy - r < 0 ∨ (img.h : ℤ) < cy + r ∨ cx - r < 0 ∨ (img.w : ℤ) < cx + r) :
    npcircle img (cx : ℚ) (cy : ℚ) (r : ℚ) color t = none := by
  simp only [npcircle, pyInt_intCast]
  rw [if_neg]
  rintro ⟨hA, hB⟩
  rcases hout with h | h | h | h
  · have := sliceLen_lt_of_out cy r img.h hr hcy (Or.inl h)
    omega
  · have := sliceLen_lt_of_out cy r img.h hr hcy (Or.inr h)
    omega
  · have := sliceLen_lt_of_out cx r img.w hr hcx (Or.inl h)
    omega
  · have := sliceLen_lt_of_out cx r img.w hr hcx (Or.inr h)
    omega

/-- Witness for the amended C6 at a concrete out-of-bounds disc. -/
theorem npcircle_out_of_bounds_witness :
    ((1:ℤ) ≤ 8 ∧ (0:ℤ) ≤ 97 ∧ (97:ℤ) - 8 ≥ 0 ∧ (100:ℤ) < 97 + 8) ∧
    npcircle zero100 ((50:ℤ) : ℚ) ((97:ℤ) : ℚ) ((8:ℤ) : ℚ) red 0 = none :=
  ⟨⟨by decide, by decide, by decide, by decide⟩,
    npcircle_out_of_bounds zero100 50 97 8 red 0 (by decide) (by decide) (by decide)
      (Or.inr (Or.inl (by decide)))⟩

/-- C10: `_npcircle` converts the joint's floating-point center coordinates
to integers by truncation toward zero, so a keypoint whose coordinates carry
fractional parts produces exactly the disc of the keypoint at the integer
parts — two keypoints differing only in their fractional parts yield
identical discs. -/
theorem npcircle_truncates :
    (∀ (img : Img) (color : ℕ → ℕ) (t radius x y : ℚ),
      npcircle img x y radius color t =
        npcircle img ((pyInt x : ℤ) : ℚ) ((pyInt y : ℤ) : ℚ) radius color t) ∧
    (∀ (img : Img) (color : ℕ → ℕ) (t radius fx fy : ℚ) (a b : ℤ),
      0 ≤ a → 0 ≤ b → 0 ≤ fx → fx < 1 → 0 ≤ fy → fy < 1 →
      npcircle img ((a : ℚ) + fx) ((b : ℚ) + fy) radius color t =
        npcircle img (a : ℚ) (b : ℚ) radius color t) := by
  constructor
  · intro img color t radius x y
    simp only [npcircle, pyInt_intCast]
  · intro img color t radius fx fy a b ha hb hfx0 hfx1 hfy0 hfy1
    have hfloor : ∀ (z : ℤ) (f : ℚ), 0 ≤ z → 0 ≤ f → f < 1 → pyInt ((z : ℚ) + f) = z := by
      intro z f hz hf0 hf1
      unfold pyInt
      rw [if_neg, Int.floor_int_add, Int.floor_eq_zero_iff.2 ⟨hf0, hf1⟩, add_zero]
      push_neg
      have : (0:ℚ) ≤ (z:ℚ) := by exact_mod_cast hz
      linarith
    simp only [npcircle, hfloor a fx ha hfx0 hfx1, hfloor b fy hb hfy0 hfy1, pyInt_intCast]

/-- Witness for C10 at concrete fractional coordinates. -/
theorem npcircle_truncates_witness :
    ((0:ℤ) ≤ 50 ∧ (0:ℚ) ≤ 1/2 ∧ (1/2:ℚ) < 1 ∧ (0:ℚ) ≤ 1/4 ∧ (1/4:ℚ) < 1) ∧
    npcircle zero100 (((50:ℤ) : ℚ) + 1/2) (((50:ℤ) : ℚ) + 1/4) 8 red 0 =
      npcircle zero100 ((50:ℤ) : ℚ) ((50:ℤ) : ℚ) 8 red 0 :=
  ⟨⟨by norm_num, by norm_num, by norm_num, by norm_num, by norm_num⟩,
    npcircle_truncates.2 zero100 red 0 8 (1/2) (1/4) 50 50 (by norm_num) (by norm_num)
      (by norm_num) (by norm_num) (by norm_num) (by norm_num)⟩

/-- C8 (bug): the array handed to the disc overlay is **not** the processing
image with its channel order reversed (BGR→RGB). Because the loop reassigns
`image = np.swapaxes(image, 0, 2)` before the `visualize` block,
`visim = image[:, :, ::-1]` reverses the *height* axis of the channel-major
`3×W×H` array: on the concrete 1×1×3 image `exImg` the overlay input has
leading dimension 3 (not 1) and leading value 1 (not 3). -/
theorem visim_axisswap_bug :
    (persistedImageAndVisim exImg).2 = revLast (swapaxes02 exImg) ∧
    (persistedImageAndVisim exImg).2.d0 ≠ (revLast exImg).d0 ∧
    (persistedImageAndVisim exImg).2.val 0 0 0 ≠ (revLast exImg).val 0 0 0 :=
  ⟨rfl, by decide, by decide⟩

end PoseDemo
